import Mathlib

/-!
Shallow embedding of the go-twitch client library (package `bot`) and proofs
about its specification.  Sources embedded: `timestamp.go` (the `Timestamp`
JSON codec), `users.go` (`UsersOptions`, `GetUsers` validation), `client.go`
(`addParams`, `Response.isSuccess`, `Client.Do`), `streams.go`
(`GetStreamKey` unwrapping).

Machine integers are modelled as `Int` with explicit wrapping where Go's
`int64` arithmetic can overflow.  Go slices (which distinguish `nil` from an
empty non-nil slice) are modelled as `Option (List String)`.  Times are
modelled as an absolute instant in nanoseconds since the Unix epoch
(`Int`), which is exactly the information content of a Go `time.Time`
(`time.Unix(sec, nsec)` denotes the instant `sec*1e9 + nsec` ns); a fixed
UTC location is assumed for calendar computations such as `Year()`.
-/

/-- Two to the 63rd, the bound of Go's `int64`. -/
def int64Bound : Int := 9223372036854775808

/-- Wrapping of an unbounded integer into Go's `int64` range, modelling
Go's two's-complement 64-bit arithmetic. -/
def wrap64 (x : Int) : Int :=
  (x + int64Bound) % (2 * int64Bound) - int64Bound

/-- Decimal value of one digit character, `none` on a non-digit.  Models the
per-character step of Go's `strconv.ParseInt` in base 10. -/
def goDigit (c : Char) : Option Nat :=
  if c.isDigit then some (c.toNat - 48) else none

/-- Decimal value of a nonempty digit string, `none` when empty or when any
character is not a digit. -/
def goDigits : List Char → Option Nat
  | [] => none
  | cs => cs.foldl (fun acc c => acc.bind fun n => (goDigit c).map fun d => 10 * n + d) (some 0)

/-- Model of Go `strconv.ParseInt(s, 10, 64)`: an optional sign followed by
one or more decimal digits, with the result required to fit in `int64`
(Go reports an `ErrRange` error otherwise, which the callers treat the same
as a syntax error).  `none` models a non-nil returned error. -/
def parseGoInt (s : String) : Option Int :=
  let (neg, digits) :=
    match s.data with
    | '+' :: rest => (false, rest)
    | '-' :: rest => (true, rest)
    | rest => (false, rest)
  match goDigits digits with
  | none => none
  | some n =>
    let v : Int := if neg then -(n : Int) else (n : Int)
    if -int64Bound ≤ v ∧ v < int64Bound then some v else none

/-- Year of the day numbered `z` in days since 1970-01-01, proleptic
Gregorian calendar (the year component of the standard `civil_from_days`
algorithm, which is also what Go's `time` package computes). -/
def civilDaysYear (z : Int) : Int :=
  let z' := z + 719468
  let era := z'.fdiv 146097
  let doe := z' - era * 146097
  let yoe := (doe - doe.fdiv 1460 + doe.fdiv 36524 - doe.fdiv 146096).fdiv 365
  let y := yoe + era * 400
  let doy := doe - (365 * yoe + yoe.fdiv 4 - yoe.fdiv 100)
  let mp := (5 * doy + 2).fdiv 153
  let m := mp + (if mp < 10 then 3 else -9)
  if m ≤ 2 then y + 1 else y

/-- Model of `time.Unix(sec, 0).Year()` (in UTC). -/
def goTimeYear (sec : Int) : Int :=
  civilDaysYear (sec.fdiv 86400)

/-- Days since 1970-01-01 of the civil date `y-m-d`, proleptic Gregorian
calendar (standard `days_from_civil` algorithm). -/
def daysFromCivil (y m d : Int) : Int :=
  let y' := if m ≤ 2 then y - 1 else y
  let era := y'.fdiv 400
  let yoe := y' - era * 400
  let doy := (153 * (m + (if 2 < m then -3 else 9)) + 2).fdiv 5 + d - 1
  let doe := yoe * 365 + yoe.fdiv 4 - yoe.fdiv 100 + doy
  era * 146097 + doe - 719468

/-- Leap-year test of the proleptic Gregorian calendar. -/
def isLeapYear (y : Int) : Bool :=
  y % 4 = 0 && (y % 100 ≠ 0 || y % 400 = 0)

/-- Number of days in month `m` of year `y`. -/
def daysInMonth (y m : Int) : Int :=
  if m = 2 then (if isLeapYear y then 29 else 28)
  else if m = 4 ∨ m = 6 ∨ m = 9 ∨ m = 11 then 30
  else 31

/-- Reads one digit from the front of a character list. -/
def readDigit : List Char → Option (Nat × List Char)
  | c :: rest => (goDigit c).map fun d => (d, rest)
  | [] => none

/-- Reads a fixed two-digit field. -/
def read2 (cs : List Char) : Option (Nat × List Char) := do
  let (a, cs) ← readDigit cs
  let (b, cs) ← readDigit cs
  pure (10 * a + b, cs)

/-- Reads a fixed four-digit field. -/
def read4 (cs : List Char) : Option (Nat × List Char) := do
  let (a, cs) ← read2 cs
  let (b, cs) ← read2 cs
  pure (100 * a + b, cs)

/-- Consumes one expected literal character. -/
def expectChar (c : Char) : List Char → Option (List Char)
  | x :: rest => if x = c then some rest else none
  | [] => none

/-- Reads a maximal run of digits from the front of a character list,
returning the digits and the rest. -/
def readDigitRun : List Char → (List Char × List Char)
  | [] => ([], [])
  | c :: rest =>
    if c.isDigit then
      let (run, left) := readDigitRun rest
      (c :: run, left)
    else ([], c :: rest)

/-- Optional fractional second directly after the seconds field, as Go's
`time.Parse` accepts it for the RFC3339 layout: a period followed by one to
nine digits, scaled to nanoseconds (more than nine digits is a parse
error). -/
def readFraction (cs : List Char) : Option (Nat × List Char) :=
  match cs with
  | '.' :: rest =>
    let (run, left) := readDigitRun rest
    if run.length = 0 ∨ 9 < run.length then none
    else
      match goDigits run with
      | some n => some (n * 10 ^ (9 - run.length), left)
      | none => none
  | rest => some (0, rest)

/-- Time-zone designator of the `Z07:00` layout element: a literal `Z`
(UTC) or a signed `hh:mm` offset, returned in seconds. -/
def readOffset (cs : List Char) : Option (Int × List Char) :=
  match cs with
  | 'Z' :: rest => some (0, rest)
  | '+' :: rest => do
    let (h, cs) ← read2 rest
    let cs ← expectChar ':' cs
    let (m, cs) ← read2 cs
    pure (((h : Int) * 3600 + (m : Int) * 60), cs)
  | '-' :: rest => do
    let (h, cs) ← read2 rest
    let cs ← expectChar ':' cs
    let (m, cs) ← read2 cs
    pure (-((h : Int) * 3600 + (m : Int) * 60), cs)
  | _ => none

/-- The `yyyy-mm-dd` date fields of the RFC3339 layout. -/
def readDate (cs : List Char) : Option ((Nat × Nat × Nat) × List Char) := do
  let (y, cs) ← read4 cs
  let cs ← expectChar '-' cs
  let (mo, cs) ← read2 cs
  let cs ← expectChar '-' cs
  let (d, cs) ← read2 cs
  pure ((y, mo, d), cs)

/-- The `hh:mm:ss` clock fields of the RFC3339 layout. -/
def readClock (cs : List Char) : Option ((Nat × Nat × Nat) × List Char) := do
  let (h, cs) ← read2 cs
  let cs ← expectChar ':' cs
  let (mi, cs) ← read2 cs
  let cs ← expectChar ':' cs
  let (se, cs) ← read2 cs
  pure ((h, mi, se), cs)

/-- Range validation performed by `time.Parse` on the parsed components. -/
def validDateClock (y mo d h mi se : Nat) : Bool :=
  1 ≤ mo && mo ≤ 12 && 1 ≤ d && ((d : Int) ≤ daysInMonth (y : Int) (mo : Int)) &&
    h ≤ 23 && mi ≤ 59 && se ≤ 59

/-- Instant in nanoseconds since the epoch denoted by the parsed components
(offset in seconds east of UTC, fractional part in nanoseconds). -/
def instantOf (y mo d h mi se : Nat) (off frac : Int) : Int :=
  (daysFromCivil (y : Int) (mo : Int) (d : Int) * 86400 + (h : Int) * 3600 +
    (mi : Int) * 60 + (se : Int) - off) * 1000000000 + frac

/-- Model of Go `time.Parse("\x22" + time.RFC3339 + "\x22", s)`: a double
quote, `yyyy-mm-dd`, a literal `T`, `hh:mm:ss`, an optional fractional
second, a `Z` or `±hh:mm` offset, and a closing double quote, with the
component ranges validated as `time.Parse` does.  Returns the denoted
instant in nanoseconds since the Unix epoch. -/
def parseRFC3339Quoted (cs : List Char) : Option Int := do
  let cs ← expectChar '"' cs
  let ((y, mo, d), cs) ← readDate cs
  let cs ← expectChar 'T' cs
  let ((h, mi, se), cs) ← readClock cs
  let (frac, cs) ← readFraction cs
  let (off, cs) ← readOffset cs
  let cs ← expectChar '"' cs
  if cs = [] ∧ validDateClock y mo d h mi se then
    some (instantOf y mo d h mi se off frac)
  else none

/-- The string-branch of the codec: parse a quoted RFC3339 value or fail
with the parse error (`time.ParseError`, modelled as a message string). -/
def parseQuotedRFC3339 (s : String) : Except String Int :=
  match parseRFC3339Quoted s.data with
  | some ns => Except.ok ns
  | none => Except.error ("parsing time " ++ s ++ " as quoted RFC3339: cannot parse")

/-- The integer branch of `Timestamp.UnmarshalJSON`: `t.Time = time.Unix(i, 0)`,
and when that time's year exceeds 3000, `t.Time = time.Unix(0, i*1e6)` —
where `i*1e6` is Go `int64` arithmetic and therefore wraps. -/
def decodeIntTimestamp (i : Int) : Int :=
  if 3000 < goTimeYear i then wrap64 (i * 1000000) else i * 1000000000

/-- Model of `Timestamp.UnmarshalJSON` from `timestamp.go`: try
`strconv.ParseInt` first; on success apply the seconds/milliseconds
heuristic; on failure parse as a quoted RFC3339 string, propagating that
parse's error.  Result: the decoded instant in nanoseconds. -/
def unmarshalTimestamp (data : String) : Except String Int :=
  match parseGoInt data with
  | some i => Except.ok (decodeIntTimestamp i)
  | none => parseQuotedRFC3339 data

/-- Modelled from the spec: the algorithm of §4.1 taken at its word —
attempt an integer parse first; if the value read as Unix seconds yields a
year beyond 3000, reinterpret the original integer as Unix milliseconds
(exact mathematical reinterpretation, `i` milliseconds `= i*1e6` ns); if
the integer parse fails, parse a quoted RFC3339 string; if that also fails,
propagate the underlying parse error. -/
def unmarshalTimestampSpec (data : String) : Except String Int :=
  match parseGoInt data with
  | some i =>
    if 3000 < goTimeYear i then Except.ok (i * 1000000)
    else Except.ok (i * 1000000000)
  | none => parseQuotedRFC3339 data

/-- Modelled from the spec as amended: identical to `unmarshalTimestampSpec`
except that the reinterpretation as milliseconds performs the scaling to
nanoseconds in wrapping 64-bit arithmetic, as Go's `i*1e6` does. -/
def unmarshalTimestampSpecWrapped (data : String) : Except String Int :=
  match parseGoInt data with
  | some i =>
    if 3000 < goTimeYear i then Except.ok (wrap64 (i * 1000000))
    else Except.ok (i * 1000000000)
  | none => parseQuotedRFC3339 data

/-- The reference constants of `timestamp.go` (raw JSON bytes, quotes
included for the string form). -/
def referenceTimeStr : String := "\"2006-01-02T15:04:05Z\""

/-- `referenceUnixTimeStr` from `timestamp.go`. -/
def referenceUnixTimeStr : String := "1136214245"

/-- `referenceUnixTimeStrMilliSeconds` from `timestamp.go`. -/
def referenceUnixTimeStrMilliSeconds : String := "1136214245000"

/-- The instant 2006-01-02T15:04:05Z in nanoseconds since the epoch. -/
def referenceInstantNs : Int := 1136214245000000000

example : parseGoInt "1136214245" = some 1136214245 := by decide
example : parseGoInt referenceTimeStr = none := by decide
example : goTimeYear 1136214245 = 2006 := by decide
example : unmarshalTimestamp referenceUnixTimeStr = Except.ok referenceInstantNs := by rfl
example : unmarshalTimestamp referenceUnixTimeStrMilliSeconds = Except.ok referenceInstantNs := by rfl
example : unmarshalTimestamp referenceTimeStr = Except.ok referenceInstantNs := by rfl

/-!
Query encoder and `addParams` (`client.go`).  `url.Values` is a map from a
key to an ordered list of values; `query.Values` fills it by walking the
struct fields in declaration order, skipping a field whose value is empty
when its tag carries `omitempty`, and adding one entry per slice element.
`url.Values.Encode` emits `k=v` pairs with the keys sorted and a key's
values kept in insertion order.  Percent-escaping is modelled as the
identity (all claim-relevant keys and values are already in the unreserved
alphabet).
-/

/-- `url.Values.Add`: appends `v` to the value list of key `k`, keeping the
first-insertion order of keys. -/
def valuesAdd (m : List (String × List String)) (k v : String) : List (String × List String) :=
  match m with
  | [] => [(k, [v])]
  | (k', vs) :: rest => if k' = k then (k', vs ++ [v]) :: rest else (k', vs) :: valuesAdd rest k v

/-- Lexicographic order on character lists (byte order, as Go compares
strings). -/
def charListLe : List Char → List Char → Bool
  | [], _ => true
  | _ :: _, [] => false
  | a :: as, b :: bs =>
    if a.toNat < b.toNat then true
    else if b.toNat < a.toNat then false
    else charListLe as bs

/-- Lexicographic order on strings. -/
def strLe (a b : String) : Bool :=
  charListLe a.data b.data

/-- Inserts one keyed entry into a key-sorted list of entries. -/
def insertPair (p : String × List String) : List (String × List String) → List (String × List String)
  | [] => [p]
  | q :: rest => if strLe p.1 q.1 then p :: q :: rest else q :: insertPair p rest

/-- Sorts the entries of a `url.Values` model by key (insertion sort; the
keys are pairwise distinct by construction). -/
def sortPairs : List (String × List String) → List (String × List String)
  | [] => []
  | p :: rest => insertPair p (sortPairs rest)

/-- `url.Values.Encode`: keys in sorted order, each key's values in order,
joined as `k=v` with `&` separators. -/
def valuesEncode (m : List (String × List String)) : String :=
  String.intercalate "&" (((sortPairs m).map fun kv => kv.2.map fun v => kv.1 ++ "=" ++ v).flatten)

/-- A relative URL as `net/url` represents the ones used by this library:
a path and a raw query. -/
structure GoURL where
  path : String
  rawQuery : String
deriving DecidableEq

/-- Splits a character list at the first `?`, returning path and query
characters. -/
def splitAtQuery : List Char → List Char × List Char
  | [] => ([], [])
  | c :: rest =>
    if c = '?' then ([], rest)
    else
      let (p, q) := splitAtQuery rest
      (c :: p, q)

/-- Model of `url.Parse` on the scheme-free relative paths this library
passes to it (parsing never fails on them). -/
def parseRelURL (s : String) : GoURL :=
  let (p, q) := splitAtQuery s.data
  ⟨⟨p⟩, ⟨q⟩⟩

/-- Model of `(*url.URL).String` for such a URL. -/
def renderURL (u : GoURL) : String :=
  u.path ++ (if u.rawQuery = "" then "" else "?" ++ u.rawQuery)

/-- `UsersOptions` from `users.go`.  Both fields are Go `[]string` slices —
`none` models a `nil` slice, `some l` a non-nil slice with elements `l` —
and both carry the url tag `id,omitempty`. -/
structure UsersOptions where
  ids : Option (List String)
  logins : Option (List String)
deriving DecidableEq

/-- `len` of a Go slice (`len(nil) = 0`). -/
def sliceLen (s : Option (List String)) : Nat :=
  (s.getD []).length

/-- `query.Values` on a `UsersOptions` value: the `Ids` field is walked
first, then `Logins`, and because both are tagged `id` every element is
added under the key `id`. -/
def usersValues (o : UsersOptions) : List (String × List String) :=
  ((o.ids.getD []) ++ (o.logins.getD [])).foldl (fun m v => valuesAdd m "id" v) []

/-- `StreamsOptions` from `streams.go`: all fields tagged `omitempty`, with
their distinct url keys. -/
structure StreamsOptions where
  after : String
  before : String
  first : Int
  gameId : String
  language : String
  userId : String
  userLogin : String
deriving DecidableEq

/-- Decimal digits of a natural number (fuel-based so that the kernel can
evaluate it). -/
def natDecimalAux : Nat → Nat → List Char
  | 0, _ => []
  | fuel + 1, n =>
    if n < 10 then [Char.ofNat (48 + n)]
    else natDecimalAux fuel (n / 10) ++ [Char.ofNat (48 + n % 10)]

/-- Base-10 rendering of a natural number, as `fmt.Sprint` produces it. -/
def natDecimal (n : Nat) : String :=
  ⟨natDecimalAux (n + 1) n⟩

/-- Base-10 rendering of an integer, as `fmt.Sprint` produces it. -/
def intDecimal (i : Int) : String :=
  if i < 0 then "-" ++ natDecimal (-i).toNat else natDecimal i.toNat

/-- `query.Values` on a `StreamsOptions` value: fields in declaration
order, empty values omitted, the `int` field printed in decimal. -/
def streamsValues (o : StreamsOptions) : List (String × List String) :=
  (([] : List (String × List String))
    |> (fun m => if o.after = "" then m else valuesAdd m "after" o.after)
    |> (fun m => if o.before = "" then m else valuesAdd m "before" o.before)
    |> (fun m => if o.first = 0 then m else valuesAdd m "first" (intDecimal o.first))
    |> (fun m => if o.gameId = "" then m else valuesAdd m "game_id" o.gameId)
    |> (fun m => if o.language = "" then m else valuesAdd m "language" o.language)
    |> (fun m => if o.userId = "" then m else valuesAdd m "user_id" o.userId)
    |> (fun m => if o.userLogin = "" then m else valuesAdd m "user_login" o.userLogin))

/-- `addParams` from `client.go`, instantiated at `*UsersOptions`: a nil
options pointer returns the path unchanged; otherwise the path is parsed,
its raw query replaced by the encoded options, and the URL re-rendered. -/
def addParamsUsers (s : String) (opts : Option UsersOptions) : String :=
  match opts with
  | none => s
  | some o => renderURL { parseRelURL s with rawQuery := valuesEncode (usersValues o) }

/-- `addParams` from `client.go`, instantiated at `*StreamsOptions`. -/
def addParamsStreams (s : String) (opts : Option StreamsOptions) : String :=
  match opts with
  | none => s
  | some o => renderURL { parseRelURL s with rawQuery := valuesEncode (streamsValues o) }

/-- Error message constants from `client.go` and `users.go`. -/
def notSuccessResponse : String := "response is not success"

/-- `userIdLoginIsRequired` from `client.go`. -/
def userIdLoginIsRequired : String := "id or login parameter is required"

/-- `broadcasterIdIsRequired` from `client.go`. -/
def broadcasterIdIsRequired : String := "broadcaster_id is required"

/-- `users100LimitError` from `users.go`. -/
def users100LimitError : String := "The limit of 100 IDs and login names is the total limit. You can request, for example, 50 of each or 100 of one of them. You cannot request 100 of both."

/-- `getUsersPath` from `users.go`. -/
def getUsersPath : String := "users"

/-- Errors a service method can return before reaching the network, plus
the pipeline errors of `Client.Do`. -/
inductive GoError where
  | invalidOptions (msg : String)
  | urlError (msg : String)
deriving DecidableEq

/-- The pre-network part of `UsersService.GetUsers`: the two validation
checks in source order (`opts == nil || opts.Ids == nil && opts.Logins == nil`,
then the combined 100 limit), followed by `addParams`; returns the built
request path.  An `Except.error` return models the early `return` with an
`ErrorInvalidOptions` before any request is built or sent. -/
def getUsersBuild (opts : Option UsersOptions) : Except GoError String :=
  match opts with
  | none => Except.error (GoError.invalidOptions userIdLoginIsRequired)
  | some o =>
    if o.ids = none ∧ o.logins = none then
      Except.error (GoError.invalidOptions userIdLoginIsRequired)
    else if 100 < sliceLen o.ids + sliceLen o.logins then
      Except.error (GoError.invalidOptions users100LimitError)
    else
      Except.ok (addParamsUsers getUsersPath (some o))

example : getUsersBuild none = Except.error (GoError.invalidOptions userIdLoginIsRequired) := by rfl
example : getUsersBuild (some ⟨some ["12"], none⟩) = Except.ok "users?id=12" := by rfl
example : getUsersBuild (some ⟨some ["1", "2"], some ["a"]⟩) = Except.ok "users?id=1&id=2&id=a" := by rfl
example : getUsersBuild (some ⟨some [], some []⟩) = Except.ok "users" := by rfl
example : addParamsStreams "streams" (some ⟨"", "", 0, "", "", "", ""⟩) = "streams" := by rfl
example : addParamsStreams "streams" (some ⟨"", "", 1, "", "", "115141884", ""⟩) = "streams?first=1&user_id=115141884" := by rfl

/-!
The transport/response pipeline `Client.Do` (`client.go`).  The injected
HTTP client's call is modelled by its outcome: either a transport-level
error (a message string) or a completed HTTP response.  The context is
modelled by whether it has been cancelled (`ctx.Done()` closed, in which
case `ctx.Err()` is the cancellation error); a `nil` context is `none`.
JSON decoding into the caller's target is modelled by a caller-supplied
decode function together with the `json.Decoder` behaviour of returning
`io.EOF` on an empty body.
-/

/-- A completed HTTP exchange as `Client.Do` observes it: status code,
body, headers. -/
structure HttpResponse where
  statusCode : Int
  body : String
  headers : List (String × String)
deriving DecidableEq

/-- A cancellable context: `cancelled` is whether `ctx.Done()` has fired. -/
structure GoContext where
  cancelled : Bool
deriving DecidableEq

/-- Rate-limit counters from `client.go`. -/
structure Rate where
  remaining : Int
  limit : Int
  resetUnixSec : Int
deriving DecidableEq

/-- `Ratelimit-Limit` header name. -/
def headerRateLimit : String := "Ratelimit-Limit"

/-- `Ratelimit-Reset` header name. -/
def headerRateReset : String := "Ratelimit-Reset"

/-- `Ratelimit-Remaining` header name. -/
def headerRateRemaining : String := "Ratelimit-Remaining"

/-- `http.Header.Get`: first value of the key, or the empty string. -/
def headerGet (hs : List (String × String)) (k : String) : String :=
  match hs.find? (fun p => p.1 = k) with
  | some p => p.2
  | none => ""

/-- `strconv.Atoi`/`ParseInt` as used by `parseRate`: on error the zero
value is kept (the error is discarded with `_`). -/
def atoiOrZero (s : String) : Int :=
  (parseGoInt s).getD 0

/-- `Response.parseRate` from `client.go`: each of the three rate headers
is parsed when present; missing headers leave the zero value. -/
def parseRate (r : HttpResponse) : Rate :=
  let lim := headerGet r.headers headerRateLimit
  let rst := headerGet r.headers headerRateReset
  let rem := headerGet r.headers headerRateRemaining
  { limit := if lim = "" then 0 else atoiOrZero lim
    resetUnixSec := if rst = "" then 0 else atoiOrZero rst
    remaining := if rem = "" then 0 else atoiOrZero rem }

/-- The `Response` wrapper built by `NewResponse`: the raw response plus
the parsed rate info. -/
structure ResponseModel where
  raw : HttpResponse
  rate : Rate
deriving DecidableEq

/-- `NewResponse` from `client.go`. -/
def newResponse (r : HttpResponse) : ResponseModel :=
  { raw := r, rate := parseRate r }

/-- `Response.isSuccess` from `client.go`: status codes 200 through 299
inclusive. -/
def isSuccess (r : HttpResponse) : Bool :=
  200 ≤ r.statusCode && r.statusCode ≤ 299

/-- The errors `Client.Do` can return. -/
inductive DoError where
  | nonNilContext
  | ctxCanceled
  | transport (msg : String)
  | errorResponse (raw : HttpResponse) (msg : String)
  | decode (msg : String)
deriving DecidableEq

/-- Outcome of `json.NewDecoder(resp.Body).Decode(v)`: `io.EOF` on an
empty stream, otherwise the decode function's result. -/
inductive DecodeOutcome (τ : Type) where
  | eof
  | ok (v : τ)
  | fail (msg : String)

/-- Models `json.NewDecoder(body).Decode(v)` given a decode function for
the target type. -/
def jsonDecodeStep {τ : Type} (dec : String → Except String τ) (body : String) : DecodeOutcome τ :=
  if body = "" then DecodeOutcome.eof
  else
    match dec body with
    | Except.ok t => DecodeOutcome.ok t
    | Except.error e => DecodeOutcome.fail e

/-- Model of `Client.Do` from `client.go`.  Arguments: the context, the
injected transport's outcome for this request, the decode target (`none`
models a `nil` interface), and the decode function for the target's type.
Result: the returned `*Response` (`none` = `nil`), the returned error
(`none` = `nil`), and the final value of the decode target. -/
def clientDo {τ : Type} (ctx : Option GoContext) (transport : Except String HttpResponse)
    (v : Option τ) (dec : String → Except String τ) :
    Option ResponseModel × Option DoError × Option τ :=
  match ctx with
  | none => (none, some DoError.nonNilContext, v)
  | some c =>
    match transport with
    | Except.error e =>
      if c.cancelled then (none, some DoError.ctxCanceled, v)
      else (none, some (DoError.transport e), v)
    | Except.ok resp =>
      let response := newResponse resp
      if isSuccess resp then
        match v with
        | none => (some response, none, none)
        | some tgt =>
          match jsonDecodeStep dec resp.body with
          | DecodeOutcome.eof => (some response, none, some tgt)
          | DecodeOutcome.ok t => (some response, none, some t)
          | DecodeOutcome.fail e => (some response, some (DoError.decode e), some tgt)
      else (none, some (DoError.errorResponse resp notSuccessResponse), v)

/-!
`StreamsService.GetStreamKey` (`streams.go`).  After a successful `Do` the
method returns `keyResp.Data[0].Key` with no bounds check; the indexing
expression `Data[0]` panics at run time when the decoded `data` array is
empty.  The unwrap is therefore modelled as an `Option`: `none` is the
out-of-bounds access, i.e. a runtime fault, not a returned error.
-/

/-- One element of the `data` array of a `StreamKeyResponse`. -/
structure StreamKeyEntry where
  key : String
deriving DecidableEq

/-- The decoded `StreamKeyResponse` envelope. -/
structure StreamKeyResponse where
  data : List StreamKeyEntry
deriving DecidableEq

/-- The unwrap `keyResp.Data[0].Key` performed by `GetStreamKey` on the
decoded envelope: `none` models the index-out-of-range panic. -/
def getStreamKeyUnwrap (r : StreamKeyResponse) : Option String :=
  (r.data.get? 0).map (fun e => e.key)

/-- `BroadcasterID` options of `GetStreamKey`. -/
structure BroadcasterID where
  id : String
deriving DecidableEq

/-- `GetStreamKey` after a 2xx exchange whose body decoded into the given
envelope: the validation of `opts` in source order, then the unwrap of
`data[0]` (`Except.ok none` means the code reached the unchecked indexing
with an empty array and faults). -/
def getStreamKeyModel (opts : Option BroadcasterID) (decoded : StreamKeyResponse) :
    Except GoError (Option String) :=
  match opts with
  | none => Except.error (GoError.invalidOptions broadcasterIdIsRequired)
  | some b =>
    if b.id = "" then Except.error (GoError.invalidOptions broadcasterIdIsRequired)
    else Except.ok (getStreamKeyUnwrap decoded)

example : getStreamKeyModel (some ⟨"12"⟩) ⟨[⟨"live_44322889_a34ub37c8ajv98a0"⟩]⟩
  = Except.ok (some "live_44322889_a34ub37c8ajv98a0") := by rfl
example : clientDo (some ⟨false⟩) (Except.ok ⟨200, "", []⟩) (some (0 : Int))
  (fun _ => Except.error "x") = (some (newResponse ⟨200, "", []⟩), none, some 0) := by rfl

/-!
Helper lemmas shared across the claim theorems.
-/

lemma wrap64_eq_self (x : Int) (hlo : -int64Bound ≤ x) (hhi : x < int64Bound) :
    wrap64 x = x := by
  unfold wrap64
  have h0 : 0 ≤ x + int64Bound := by linarith
  have h1 : x + int64Bound < 2 * int64Bound := by linarith
  rw [Int.emod_eq_of_lt h0 h1]
  ring

lemma splitAtQuery_eq_of_not_mem (cs : List Char) (h : '?' ∉ cs) :
    splitAtQuery cs = (cs, []) := by
  induction cs with
  | nil => rfl
  | cons c rest ih =>
    simp only [splitAtQuery]
    have hc : ¬ c = '?' := by
      intro hc
      subst hc
      exact h (List.mem_cons_self _ _)
    rw [if_neg hc, ih (fun hm => h (List.mem_cons_of_mem c hm))]

lemma foldl_valuesAdd_same_key (k : String) (l vs : List String) :
    l.foldl (fun m v => valuesAdd m k v) [(k, vs)] = [(k, vs ++ l)] := by
  induction l generalizing vs with
  | nil => simp
  | cons a rest ih =>
    simp only [List.foldl_cons]
    have hstep : valuesAdd [(k, vs)] k a = [(k, vs ++ [a])] := by
      simp [valuesAdd]
    rw [hstep, ih]
    simp

/-!
Claim theorems.
-/

/-- C1: for a 2xx exchange whose body decodes into a `StreamKeyResponse`
with an empty `data` array — which the spec declares legitimate —
`GetStreamKey` reaches the unchecked indexing `keyResp.Data[0]` and the
access goes out of bounds (`Except.ok none`: the pipeline succeeded and the
unwrap found no element, i.e. the Go code panics instead of returning a key
or an error). -/
theorem getStreamKey_empty_data_faults :
    getStreamKeyModel (some ⟨"12"⟩) ⟨[]⟩ = Except.ok none := rfl

/-- C2 (counterexample): the claim quantifies over every instant
representable in all three encodings, but for the instant
1970-01-01T00:00:10Z the Unix-seconds encoding `10` and the RFC3339 string
decode to 10 s while the Unix-milliseconds encoding `10000` decodes to
10000 s (its year, 1970, does not exceed 3000, so the heuristic never
reinterprets it): the three encodings do not all agree. -/
theorem timestamp_encodings_disagree_at_ten_seconds :
    unmarshalTimestamp "10000" = Except.ok 10000000000000 ∧
    unmarshalTimestamp "10" = Except.ok 10000000000 ∧
    unmarshalTimestamp "\"1970-01-01T00:00:10Z\"" = Except.ok 10000000000 ∧
    (10000000000000 : Int) ≠ 10000000000 :=
  ⟨rfl, rfl, rfl, by decide⟩

/-- C2 (as amended): the seconds and milliseconds integer encodings of an
instant decode to the same normalized instant whenever the milliseconds
value read as Unix seconds yields a year beyond 3000, the seconds value
does not, and the instant in nanoseconds fits in 64 bits; and in
particular the three reference encodings `"2006-01-02T15:04:05Z"`,
`1136214245` and `1136214245000` all decode to the same instant. -/
theorem timestamp_encodings_agree (s : Int)
    (hsec : goTimeYear s ≤ 3000) (hms : 3000 < goTimeYear (s * 1000))
    (hlo : -int64Bound ≤ s * 1000000000) (hhi : s * 1000000000 < int64Bound) :
    decodeIntTimestamp (s * 1000) = decodeIntTimestamp s ∧
    unmarshalTimestamp referenceTimeStr = Except.ok referenceInstantNs ∧
    unmarshalTimestamp referenceUnixTimeStr = Except.ok referenceInstantNs ∧
    unmarshalTimestamp referenceUnixTimeStrMilliSeconds = Except.ok referenceInstantNs := by
  refine ⟨?_, rfl, rfl, rfl⟩
  unfold decodeIntTimestamp
  rw [if_pos hms, if_neg (not_lt.mpr hsec)]
  have harith : s * 1000 * 1000000 = s * 1000000000 := by ring
  rw [harith, wrap64_eq_self _ hlo hhi]

/-- C2 witness: the amended agreement instantiated at the reference
instant 2006-01-02T15:04:05Z. -/
theorem timestamp_encodings_agree_witness :
    decodeIntTimestamp (1136214245 * 1000) = decodeIntTimestamp 1136214245 :=
  (timestamp_encodings_agree 1136214245 (by decide) (by decide) (by decide) (by decide)).1

/-- C3 (counterexample): on the input `10000000000000` (read as seconds:
year 318857, beyond 3000) the code computes `time.Unix(0, i*1e6)` whose
argument `i*1e6 = 10^19` overflows `int64` and wraps to a negative
nanosecond count, so the decoded instant is not the mathematical
reinterpretation of the integer as Unix milliseconds (`10^19` ns) that the
claim's algorithm describes. -/
theorem unmarshal_ms_reinterpretation_overflows :
    unmarshalTimestamp "10000000000000" = Except.ok (-8446744073709551616) ∧
    unmarshalTimestampSpec "10000000000000" = Except.ok 10000000000000000000 ∧
    (-8446744073709551616 : Int) ≠ 10000000000000000000 :=
  ⟨rfl, rfl, by decide⟩

/-- C3 (as amended): for every input byte string `Timestamp.UnmarshalJSON`
follows the spec's algorithm — integer parse first, the year-3000
seconds/milliseconds heuristic, RFC3339 fallback, error propagation — with
the one amendment that the reinterpretation as milliseconds scales to
nanoseconds in wrapping 64-bit arithmetic. -/
theorem unmarshalTimestamp_follows_spec_algorithm (s : String) :
    unmarshalTimestamp s = unmarshalTimestampSpecWrapped s := by
  unfold unmarshalTimestamp unmarshalTimestampSpecWrapped decodeIntTimestamp
  cases parseGoInt s with
  | none => rfl
  | some i =>
    by_cases h : 3000 < goTimeYear i <;> simp [h]

/-- C4 (counterexample): an options value whose identifier and login
collections are empty but non-nil passes the validation — `GetUsers`
proceeds to build the request path `users` instead of failing with the
"id or login parameter is required" error, because the source checks the
slices against `nil`, not against emptiness. -/
theorem getUsers_empty_non_nil_passes :
    getUsersBuild (some ⟨some [], some []⟩) = Except.ok "users" := rfl

/-- C4 (as amended): `GetUsers` fails with the "id or login parameter is
required" invalid-options error, before any request is built or sent,
exactly when the options value is null or both of its collections are nil
(absent); empty non-nil collections pass this validation. -/
theorem getUsers_requires_id_or_login (opts : Option UsersOptions) :
    getUsersBuild opts = Except.error (GoError.invalidOptions userIdLoginIsRequired) ↔
      opts = none ∨ opts = some ⟨none, none⟩ := by
  cases opts with
  | none => simp [getUsersBuild]
  | some o =>
    obtain ⟨ids, logins⟩ := o
    constructor
    · intro he
      simp only [getUsersBuild] at he
      split at he
      · rename_i h
        right
        rw [h.1, h.2]
      · split at he
        · exact absurd (GoError.invalidOptions.inj (Except.error.inj he)) (by decide)
        · exact absurd he (by simp)
    · intro ho
      rcases ho with h | h
      · exact absurd h (by simp)
      · have h2 : ids = none ∧ logins = none := by
          have := Option.some.inj h
          exact ⟨congrArg UsersOptions.ids this, congrArg UsersOptions.logins this⟩
        rw [h2.1, h2.2]
        rfl

/-- C5: a `GetUsers` call whose options carry more than 100 identifiers
plus login names combined fails with the 100-limit invalid-options error
before any request is built, while a combined count of exactly 100 passes
validation and a request path is built. -/
theorem getUsers_combined_100_limit :
    (∀ o : UsersOptions, 100 < sliceLen o.ids + sliceLen o.logins →
      getUsersBuild (some o) = Except.error (GoError.invalidOptions users100LimitError)) ∧
    (∀ o : UsersOptions, sliceLen o.ids + sliceLen o.logins = 100 →
      ∃ u, getUsersBuild (some o) = Except.ok u) := by
  constructor
  · intro o hgt
    have hnn : ¬ (o.ids = none ∧ o.logins = none) := by
      rintro ⟨h1, h2⟩
      rw [h1, h2] at hgt
      simp [sliceLen] at hgt
    simp only [getUsersBuild, if_neg hnn, if_pos hgt]
  · intro o h100
    have hnn : ¬ (o.ids = none ∧ o.logins = none) := by
      rintro ⟨h1, h2⟩
      rw [h1, h2] at h100
      simp [sliceLen] at h100
    have hle : ¬ 100 < sliceLen o.ids + sliceLen o.logins := by omega
    refine ⟨addParamsUsers getUsersPath (some o), ?_⟩
    simp only [getUsersBuild, if_neg hnn, if_neg hle]

/-- C5 witness: 101 identifiers fail with the 100-limit error; 60
identifiers plus 40 logins pass validation. -/
theorem getUsers_combined_100_limit_witness :
    getUsersBuild (some ⟨some (List.replicate 101 "x"), none⟩)
      = Except.error (GoError.invalidOptions users100LimitError) ∧
    ∃ u, getUsersBuild (some ⟨some (List.replicate 60 "x"), some (List.replicate 40 "y")⟩)
      = Except.ok u :=
  ⟨getUsers_combined_100_limit.1 ⟨some (List.replicate 101 "x"), none⟩ (by decide),
   getUsers_combined_100_limit.2 ⟨some (List.replicate 60 "x"), some (List.replicate 40 "y")⟩
     (by decide)⟩

/-- C6: `Do` classifies a status code as success exactly when it lies in
200–299 inclusive, and for any other status code it returns a nil
`*Response` together with a "response is not success" error carrying the
raw response, so the caller never receives a partially-filled response
wrapper on failure. -/
theorem do_status_classification {τ : Type} (c : GoContext) (resp : HttpResponse)
    (v : Option τ) (dec : String → Except String τ) :
    (isSuccess resp = true ↔ 200 ≤ resp.statusCode ∧ resp.statusCode ≤ 299) ∧
    (isSuccess resp = false →
      clientDo (some c) (Except.ok resp) v dec
        = (none, some (DoError.errorResponse resp notSuccessResponse), v)) := by
  constructor
  · simp [isSuccess]
  · intro h
    simp [clientDo, h]

/-- C6 witness: a 404 exchange yields the non-success error with the raw
response and a nil response wrapper. -/
theorem do_status_classification_witness :
    clientDo (some ⟨false⟩) (Except.ok ⟨404, "", []⟩) (none : Option Int)
      (fun _ => Except.error "unused")
      = (none, some (DoError.errorResponse ⟨404, "", []⟩ notSuccessResponse), none) :=
  (do_status_classification ⟨false⟩ ⟨404, "", []⟩ none (fun _ => Except.error "unused")).2
    (by decide)

/-- C7: `addParams` with a nil options pointer returns the base path
unchanged, and with a non-nil options value whose fields are all
zero/empty it also returns the path unchanged with no trailing question
mark — for both the streams options and the users options instantiations
(a base path contains no query separator). -/
theorem addParams_empty_options_unchanged (s : String) (h : '?' ∉ s.data) :
    addParamsStreams s none = s ∧
    addParamsStreams s (some ⟨"", "", 0, "", "", "", ""⟩) = s ∧
    addParamsUsers s none = s ∧
    addParamsUsers s (some ⟨none, none⟩) = s := by
  obtain ⟨cs⟩ := s
  have hsplit : splitAtQuery cs = (cs, []) := splitAtQuery_eq_of_not_mem cs h
  have hparse : parseRelURL ⟨cs⟩ = ⟨⟨cs⟩, ""⟩ := by
    unfold parseRelURL
    rw [hsplit]
  refine ⟨rfl, ?_, rfl, ?_⟩
  · show renderURL { parseRelURL ⟨cs⟩ with
      rawQuery := valuesEncode (streamsValues ⟨"", "", 0, "", "", "", ""⟩) } = ⟨cs⟩
    rw [hparse]
    show (⟨cs⟩ : String) ++ "" = ⟨cs⟩
    show (⟨cs ++ []⟩ : String) = ⟨cs⟩
    rw [List.append_nil]
  · show renderURL { parseRelURL ⟨cs⟩ with
      rawQuery := valuesEncode (usersValues ⟨none, none⟩) } = ⟨cs⟩
    rw [hparse]
    show (⟨cs⟩ : String) ++ "" = ⟨cs⟩
    show (⟨cs ++ []⟩ : String) = ⟨cs⟩
    rw [List.append_nil]

/-- C7 witness: the `users` and `streams` base paths are left unchanged by
nil options and by all-zero options. -/
theorem addParams_empty_options_unchanged_witness :
    addParamsStreams "streams" none = "streams" ∧
    addParamsStreams "streams" (some ⟨"", "", 0, "", "", "", ""⟩) = "streams" ∧
    addParamsUsers "streams" none = "streams" ∧
    addParamsUsers "streams" (some ⟨none, none⟩) = "streams" :=
  addParams_empty_options_unchanged "streams" (by decide)

/-- C8: a 2xx response with an empty body and a non-nil decode target
completes without error (the decoder's `io.EOF` is suppressed) and the
decode target keeps the value it had before the call. -/
theorem do_empty_body_leaves_target {τ : Type} (c : GoContext) (resp : HttpResponse)
    (tgt : τ) (dec : String → Except String τ)
    (hok : isSuccess resp = true) (hbody : resp.body = "") :
    clientDo (some c) (Except.ok resp) (some tgt) dec
      = (some (newResponse resp), none, some tgt) := by
  simp [clientDo, hok, jsonDecodeStep, hbody]

/-- C8 witness: a 200 exchange with an empty body leaves an integer target
at its prior value 7 and returns no error, even with a decode function
that would always fail. -/
theorem do_empty_body_leaves_target_witness :
    clientDo (some ⟨false⟩) (Except.ok ⟨200, "", []⟩) (some (7 : Int))
      (fun _ => Except.error "would fail")
      = (some (newResponse ⟨200, "", []⟩), none, some 7) :=
  do_empty_body_leaves_target ⟨false⟩ ⟨200, "", []⟩ 7 (fun _ => Except.error "would fail")
    (by decide) (by decide)

/-- C9: when the injected transport returns an error, `Do` surfaces the
context's cancellation error if the context was already cancelled, and
surfaces the raw transport error verbatim otherwise. -/
theorem do_transport_error_prefers_ctx {τ : Type} (c : GoContext) (e : String)
    (v : Option τ) (dec : String → Except String τ) :
    (c.cancelled = true →
      clientDo (some c) (Except.error e) v dec = (none, some DoError.ctxCanceled, v)) ∧
    (c.cancelled = false →
      clientDo (some c) (Except.error e) v dec = (none, some (DoError.transport e), v)) := by
  constructor <;> intro h <;> simp [clientDo, h]

/-- C9 witness: a cancelled context turns a transport failure into the
cancellation error; an uncancelled one surfaces the raw transport error. -/
theorem do_transport_error_prefers_ctx_witness :
    clientDo (some ⟨true⟩) (Except.error "dial tcp: refused") (none : Option Int)
      (fun _ => Except.error "unused") = (none, some DoError.ctxCanceled, none) ∧
    clientDo (some ⟨false⟩) (Except.error "dial tcp: refused") (none : Option Int)
      (fun _ => Except.error "unused") = (none, some (DoError.transport "dial tcp: refused"), none) :=
  ⟨(do_transport_error_prefers_ctx ⟨true⟩ "dial tcp: refused" none
      (fun _ => Except.error "unused")).1 rfl,
   (do_transport_error_prefers_ctx ⟨false⟩ "dial tcp: refused" none
      (fun _ => Except.error "unused")).2 rfl⟩

/-- C10: for a `UsersOptions` value with non-empty `Logins`, the query
encoder puts every element of `Logins` under the query key `id`, appended
after the elements of `Ids`, and emits no `login` key at all — both struct
fields carry the url tag `id,omitempty`. -/
theorem usersOptions_logins_under_id_key (ids logins : List String) (h : logins ≠ []) :
    usersValues ⟨some ids, some logins⟩ = [("id", ids ++ logins)] ∧
    ∀ p ∈ usersValues ⟨some ids, some logins⟩, p.1 = "id" ∧ p.1 ≠ "login" := by
  have hne : ids ++ logins ≠ [] := by
    intro hc
    exact h (List.append_eq_nil.mp hc).2
  obtain ⟨a, rest, hl⟩ := List.exists_cons_of_ne_nil hne
  have key : usersValues ⟨some ids, some logins⟩ = [("id", ids ++ logins)] := by
    unfold usersValues
    simp only [Option.getD_some]
    rw [hl]
    simp only [List.foldl_cons]
    have h0 : valuesAdd [] "id" a = [("id", [a])] := rfl
    rw [h0, foldl_valuesAdd_same_key]
    simp
  refine ⟨key, ?_⟩
  intro p hp
  rw [key] at hp
  simp only [List.mem_singleton] at hp
  subst hp
  refine ⟨rfl, ?_⟩
  show ("id" : String) ≠ "login"
  decide

/-- C10 witness: with one identifier and one login, the encoder emits both
under the key `id`, identifier first. -/
theorem usersOptions_logins_under_id_key_witness :
    usersValues ⟨some ["12"], some ["aboba"]⟩ = [("id", ["12", "aboba"])] :=
  (usersOptions_logins_under_id_key ["12"] ["aboba"] (by simp)).1
